import Mathlib

/-!
Verification of the pyonedrive resumable-upload core against its source.

Shallow embedding of:
- onedrive/api.py   : OneDriveAPIClient.upload chunk loop, _initiate_upload_session,
                      _get_upload_position, _is_weird_upload_error
- onedrive/upload_helper.py : FileSegment, put_file_segment, stream_put_file_segment
- onedrive/save.py  : SavedUploadSession (load / __bool__ / _locate_saved_session)

Python machine integers are modelled as Int (arbitrary precision, like Python's
int); byte offsets and sizes that are known non-negative are modelled as Nat.
Network interaction is modelled by oracles (functions from a call counter to
the server's answer).  Raised exceptions are modelled by explicit result
constructors.
-/

namespace Onedrive

/-! ### Chunk-size clamping (api.py line 133)

Source:
`chunk_size = (((min(max(1, chunk_size), 1048576 * 60) - 1) // 327680) + 1) * 327680`

Python `//` is floor division; both operands here are non-negative after the
clamp, and for a positive divisor `Int.ediv` agrees with Python's `//`. -/

def clampChunkSize (chunk_size : Int) : Int :=
  ((min (max 1 chunk_size) (1048576 * 60) - 1) / 327680 + 1) * 327680

/-! ### The happy-path chunk loop (api.py lines 205-226)

The upload loop, specialised to the all-Progress happy path (every chunk PUT
returns 200, 201 or 202): while `position < total`, compute
`size = min(chunk_size, total - position)`, send the chunk covering
`[position, position + size)`, and on a Progress response advance
`position += size`.  `uploadChunksFrom` records the `(position, size)` pair of
every chunk sent, starting from a given position. -/

def uploadChunksFrom (chunk_size : Nat) (hc : 0 < chunk_size) (total position : Nat) :
    List (Nat × Nat) :=
  if h : position < total then
    (position, min chunk_size (total - position)) ::
      uploadChunksFrom chunk_size hc total (position + min chunk_size (total - position))
  else
    []
termination_by total - position
decreasing_by
  have h1 : 0 < min chunk_size (total - position) :=
    lt_min hc (Nat.sub_pos_of_lt h)
  omega

/-- Chunks sent by the loop when the upload starts at position 0. -/
def uploadChunks (chunk_size : Nat) (hc : 0 < chunk_size) (total : Nat) : List (Nat × Nat) :=
  uploadChunksFrom chunk_size hc total 0

theorem uploadChunksFrom_join (c : Nat) (hc : 0 < c) (n : Nat) :
    ∀ pos, ((uploadChunksFrom c hc n pos).map fun x => List.range' x.1 x.2).flatten
      = List.range' pos (n - pos) := by
  intro pos
  have H : ∀ k pos, n - pos ≤ k →
      ((uploadChunksFrom c hc n pos).map fun x => List.range' x.1 x.2).flatten
        = List.range' pos (n - pos) := by
    intro k
    induction k with
    | zero =>
      intro pos hk
      rw [uploadChunksFrom]
      have : ¬ pos < n := by omega
      simp [this, Nat.sub_eq_zero_of_le (Nat.le_of_not_lt this)]
    | succ k ih =>
      intro pos hk
      rw [uploadChunksFrom]
      by_cases hlt : pos < n
      · have hszpos : 0 < min c (n - pos) := lt_min hc (Nat.sub_pos_of_lt hlt)
        have hszle : min c (n - pos) ≤ n - pos := Nat.min_le_right _ _
        rw [dif_pos hlt]
        simp only [List.map_cons, List.flatten_cons]
        rw [ih (pos + min c (n - pos)) (by omega)]
        have h2 : n - (pos + min c (n - pos)) = (n - pos) - min c (n - pos) := by omega
        rw [h2, List.range'_append_1]
        congr 1
        omega
      · rw [dif_neg hlt]
        simp [Nat.sub_eq_zero_of_le (Nat.le_of_not_lt hlt)]
  exact H (n - pos) pos le_rfl

theorem uploadChunksFrom_mem (c : Nat) (hc : 0 < c) (n : Nat) :
    ∀ pos, ∀ x ∈ uploadChunksFrom c hc n pos,
      x.2 = min c (n - x.1) ∧ 0 < x.2 ∧ x.1 + x.2 ≤ n ∧ pos ≤ x.1 := by
  intro pos
  have H : ∀ k pos, n - pos ≤ k → ∀ x ∈ uploadChunksFrom c hc n pos,
      x.2 = min c (n - x.1) ∧ 0 < x.2 ∧ x.1 + x.2 ≤ n ∧ pos ≤ x.1 := by
    intro k
    induction k with
    | zero =>
      intro pos hk x hx
      rw [uploadChunksFrom] at hx
      have : ¬ pos < n := by omega
      simp [this] at hx
    | succ k ih =>
      intro pos hk x hx
      rw [uploadChunksFrom] at hx
      by_cases hlt : pos < n
      · rw [dif_pos hlt] at hx
        have hszpos : 0 < min c (n - pos) := lt_min hc (Nat.sub_pos_of_lt hlt)
        have hszle : min c (n - pos) ≤ n - pos := Nat.min_le_right _ _
        rcases List.mem_cons.mp hx with hx | hx
        · subst hx
          refine ⟨rfl, hszpos, by omega, le_rfl⟩
        · have := ih (pos + min c (n - pos)) (by omega) x hx
          exact ⟨this.1, this.2.1, this.2.2.1, by omega⟩
      · rw [dif_neg hlt] at hx
        simp at hx
  exact H (n - pos) pos le_rfl

theorem uploadChunksFrom_head (c : Nat) (hc : 0 < c) (n pos : Nat) (h : pos < n) :
    (uploadChunksFrom c hc n pos).head? = some (pos, min c (n - pos)) := by
  rw [uploadChunksFrom, dif_pos h]
  rfl

theorem uploadChunksFrom_chain (c : Nat) (hc : 0 < c) (n : Nat) :
    ∀ pos, List.Chain' (fun a b => b.1 = a.1 + a.2) (uploadChunksFrom c hc n pos) := by
  intro pos
  have H : ∀ k pos, n - pos ≤ k →
      List.Chain' (fun a b => b.1 = a.1 + a.2) (uploadChunksFrom c hc n pos) := by
    intro k
    induction k with
    | zero =>
      intro pos hk
      rw [uploadChunksFrom]
      have : ¬ pos < n := by omega
      simp [this]
    | succ k ih =>
      intro pos hk
      rw [uploadChunksFrom]
      by_cases hlt : pos < n
      · have hszpos : 0 < min c (n - pos) := lt_min hc (Nat.sub_pos_of_lt hlt)
        have hszle : min c (n - pos) ≤ n - pos := Nat.min_le_right _ _
        rw [dif_pos hlt]
        rw [List.chain'_cons']
        refine ⟨?_, ih (pos + min c (n - pos)) (by omega)⟩
        intro y hy
        by_cases hlt2 : pos + min c (n - pos) < n
        · rw [uploadChunksFrom_head c hc n _ hlt2] at hy
          simp at hy
          subst hy
          rfl
        · rw [uploadChunksFrom, dif_neg hlt2] at hy
          simp at hy
      · rw [dif_neg hlt]
        simp
  exact H (n - pos) pos le_rfl

theorem uploadChunksFrom_last (c : Nat) (hc : 0 < c) (n : Nat) :
    ∀ pos, ∀ x, (uploadChunksFrom c hc n pos).getLast? = some x → x.1 + x.2 = n := by
  intro pos
  have H : ∀ k pos, n - pos ≤ k → ∀ x,
      (uploadChunksFrom c hc n pos).getLast? = some x → x.1 + x.2 = n := by
    intro k
    induction k with
    | zero =>
      intro pos hk x hx
      rw [uploadChunksFrom] at hx
      have : ¬ pos < n := by omega
      simp [this] at hx
    | succ k ih =>
      intro pos hk x hx
      rw [uploadChunksFrom] at hx
      by_cases hlt : pos < n
      · have hszpos : 0 < min c (n - pos) := lt_min hc (Nat.sub_pos_of_lt hlt)
        have hszle : min c (n - pos) ≤ n - pos := Nat.min_le_right _ _
        rw [dif_pos hlt] at hx
        by_cases hlt2 : pos + min c (n - pos) < n
        · cases hrest : uploadChunksFrom c hc n (pos + min c (n - pos)) with
          | nil =>
            rw [uploadChunksFrom, dif_pos hlt2] at hrest
            simp at hrest
          | cons y t =>
            rw [hrest, List.getLast?_cons_cons] at hx
            refine ih (pos + min c (n - pos)) (by omega) x ?_
            rw [hrest]
            exact hx
        · have hnil : uploadChunksFrom c hc n (pos + min c (n - pos)) = [] := by
            rw [uploadChunksFrom, dif_neg hlt2]
          rw [hnil] at hx
          simp at hx
          subst hx
          simp only
          omega
      · rw [dif_neg hlt] at hx
        simp at hx
  exact H (n - pos) pos le_rfl

/-- C6: for every requested chunk size (any integer, including zero and
negative), the effective chunk size used by `upload` (api.py line 133) is
strictly positive, at most 60 MiB = 62914560 bytes, a multiple of the 320 KiB
= 327680-byte alignment unit, and equals
`(((min(max(1, c), 62914560) - 1) // 327680) + 1) * 327680`. -/
theorem chunk_size_clamp_spec (c : Int) :
    0 < clampChunkSize c ∧ clampChunkSize c ≤ 62914560 ∧
    (327680 : Int) ∣ clampChunkSize c ∧
    clampChunkSize c = ((min (max 1 c) 62914560 - 1) / 327680 + 1) * 327680 := by
  have h1 : (1 : Int) ≤ max 1 c := le_max_left _ _
  have h2 : (1 : Int) ≤ min (max 1 c) (1048576 * 60) := le_min h1 (by norm_num)
  have h3 : min (max 1 c) (1048576 * 60) ≤ 62914560 := by
    have := min_le_right (max 1 c) (1048576 * 60)
    omega
  have hq0 : 0 ≤ (min (max 1 c) (1048576 * 60) - 1) / 327680 :=
    Int.ediv_nonneg (by omega) (by norm_num)
  have hq1 : (min (max 1 c) (1048576 * 60) - 1) / 327680 ≤ 191 := by
    have hb : min (max 1 c) (1048576 * 60) - 1 ≤ 62914559 := by omega
    have := Int.ediv_le_ediv (by norm_num : (0 : Int) < 327680) hb
    have hval : (62914559 : Int) / 327680 = 191 := by decide
    omega
  refine ⟨?_, ?_, ?_, ?_⟩
  · unfold clampChunkSize
    nlinarith
  · unfold clampChunkSize
    nlinarith
  · exact Dvd.intro_left _ rfl
  · unfold clampChunkSize
    norm_num

/-- C1: for every chunk size c > 0 and every file size n greater than the
simple-upload threshold, under the all-Progress happy path the byte ranges
sent by the upload loop (api.py lines 205-226) partition [0, n) exactly once:
the concatenation of the ranges is exactly [0, n), each chunk has size
min(c, n - position) > 0 and stays inside the file, consecutive chunk starts
advance by exactly the size sent, the first chunk starts at 0, and the last
chunk ends at n (the loop terminates with position = n). -/
theorem upload_happy_path_partition (c n threshold : Nat) (hc : 0 < c)
    (hn : threshold < n) :
    ((uploadChunks c hc n).map fun x => List.range' x.1 x.2).flatten = List.range' 0 n
    ∧ (∀ x ∈ uploadChunks c hc n, x.2 = min c (n - x.1) ∧ 0 < x.2 ∧ x.1 + x.2 ≤ n)
    ∧ List.Chain' (fun a b => b.1 = a.1 + a.2) (uploadChunks c hc n)
    ∧ (uploadChunks c hc n).head? = some (0, min c n)
    ∧ (∀ x, (uploadChunks c hc n).getLast? = some x → x.1 + x.2 = n) := by
  have hn0 : 0 < n := by omega
  refine ⟨?_, ?_, ?_, ?_, ?_⟩
  · have := uploadChunksFrom_join c hc n 0
    simpa [uploadChunks] using this
  · intro x hx
    have := uploadChunksFrom_mem c hc n 0 x hx
    exact ⟨this.1, this.2.1, this.2.2.1⟩
  · exact uploadChunksFrom_chain c hc n 0
  · have := uploadChunksFrom_head c hc n 0 hn0
    simpa [uploadChunks] using this
  · exact uploadChunksFrom_last c hc n 0

/-- Witness for C1 at c = 2, n = 5, threshold = 0. -/
theorem upload_happy_path_partition_witness :
    ((uploadChunks 2 (by decide) 5).map fun x => List.range' x.1 x.2).flatten
      = List.range' 0 5 :=
  (upload_happy_path_partition 2 5 0 (by decide) (by decide)).1

/-! ### Response classification and the full chunk loop (api.py)

A chunk PUT response is modelled by its HTTP status code together with one
bit of the error body: whether `response.json()["error"]["innererror"]["code"]
== "fragmentRowCountCheckFailed"` (the only part of the body the code looks
at; a missing key is a KeyError that the source swallows, i.e. `false`). -/

structure ChunkResponse where
  status : Nat
  fragmentRowCountCheckFailed : Bool
  deriving DecidableEq

/-- Source: api.py lines 423-456, `_is_weird_upload_error`.  A 416 whose error
body indicates fragmentRowCountCheckFailed is weird; every status in the
known-solutions set {200, 201, 202, 404, 416, 500, 502, 503, 504} is not; any
other status (e.g. 401) is weird. -/
def _is_weird_upload_error (response : ChunkResponse) : Bool :=
  if response.status = 416 ∧ response.fragmentRowCountCheckFailed then
    true
  else if response.status ∈ [200, 201, 202, 404, 416, 500, 502, 503, 504] then
    false
  else
    true

/-- Answer of the server to one upload-session status GET (api.py lines
393-402): the HTTP status, the list of start offsets of the returned
`nextExpectedRanges` (the code only uses the part of each range before the
dash), and whether `self.exists(path)` holds after the 30-second sleep taken
when the range list is empty. -/
structure StatusQueryAnswer where
  status : Nat
  nextExpectedRanges : List Nat
  existsAfterWait : Bool
  deriving DecidableEq

/-- Result of `_get_upload_position`: either an UploadError raise, or a normal
return.  The Python function returns the bare `return` (i.e. None) on the
empty-range path where the remote file exists, and an int otherwise; this is
modelled by `ret (none)` versus `ret (some position)`. -/
inductive GetPositionResult
  | ret (position : Option Nat)
  | raiseUploadError
  deriving DecidableEq

/-- Source: api.py lines 377-421, `_get_upload_position`.  Non-200 status
raises UploadError; an empty `nextExpectedRanges` sleeps 30 s and then checks
remote existence, returning None if the file exists and raising UploadError
otherwise; more than one range raises UploadError (multi-range upload not
implemented); a single range returns its start offset. -/
def _get_upload_position (ans : StatusQueryAnswer) : GetPositionResult :=
  if ans.status ≠ 200 then
    .raiseUploadError
  else
    match ans.nextExpectedRanges with
    | [] => if ans.existsAfterWait then .ret none else .raiseUploadError
    | [r] => .ret (some r)
    | _ => .raiseUploadError

/-- Answer of the server to one `upload.createSession` POST (api.py lines
349-373): the HTTP status and the `uploadUrl` field of the JSON body (None if
the key is absent). -/
structure InitiationAnswer where
  status : Nat
  uploadUrl : Option String
  deriving DecidableEq

inductive InitiationResult
  | ok (upload_url : String)
  | raiseFileNotFoundError
  | raiseUploadError
  deriving DecidableEq

/-- Source: api.py lines 322-375, `_initiate_upload_session`.  A 404 raises
FileNotFoundError (destination directory absent); any other non-200 raises
UploadError; a missing `uploadUrl` key raises UploadError; otherwise the
access token is stripped from the returned URL (`pop_query_from_url`,
modelled by the abstract `pop` function) and the URL is returned. -/
def _initiate_upload_session (ans : InitiationAnswer) (pop : String → String) :
    InitiationResult :=
  if ans.status = 404 then
    .raiseFileNotFoundError
  else if ans.status ≠ 200 then
    .raiseUploadError
  else
    match ans.uploadUrl with
    | none => .raiseUploadError
    | some url => .ok (pop url)

/-- Result of one iteration of the chunk loop body (api.py lines 208-256).
`next p w u queried` means the loop continues with position `p` (None models
the Python None returned by `_get_upload_position`), weird-error flag `w`,
upload URL `u`; `queried` records whether this iteration consumed a status
query.  The `raise` constructors model the exceptions that abort the loop. -/
inductive IterationResult
  | next (position : Option Nat) (weird_error : Bool) (upload_url : String) (queried : Bool)
  | raiseUploadErrorChunk
  | raiseUploadErrorQuery
  | raiseFileNotFound
  | raiseUploadErrorInitiation
  deriving DecidableEq

/-- Source: api.py lines 208-256, one iteration of `while position < total`.
The chunk of `size = min(chunk_size, total - position)` bytes at `position`
is PUT; then:
- status in {200, 201, 202}: clear the weird-error flag, advance position by
  size, continue (lines 221-226);
- status 404: clear the flag, re-initiate the upload session (new upload
  URL), reset position to 0, continue (lines 227-234);
- weird error (`_is_weird_upload_error`): raise UploadError if the flag is
  already set, else set the flag, sleep 30 s, and fall through (lines
  235-244);
- any other error: clear the flag and fall through (lines 245-247);
- fall-through (lines 249-256): sleep (30 s if status ≥ 500 else 3 s), then
  resynchronise position from `_get_upload_position`. -/
def chunkIteration (chunk_size total position : Nat) (weird_error : Bool)
    (upload_url : String) (r : ChunkResponse) (q : StatusQueryAnswer)
    (ini : InitiationAnswer) (pop : String → String) : IterationResult :=
  if r.status ∈ [200, 201, 202] then
    .next (some (position + min chunk_size (total - position))) false upload_url false
  else if r.status = 404 then
    match _initiate_upload_session ini pop with
    | .raiseFileNotFoundError => .raiseFileNotFound
    | .raiseUploadError => .raiseUploadErrorInitiation
    | .ok url => .next (some 0) false url false
  else if _is_weird_upload_error r then
    if weird_error then
      .raiseUploadErrorChunk
    else
      match _get_upload_position q with
      | .raiseUploadError => .raiseUploadErrorQuery
      | .ret p => .next p true upload_url true
  else
    match _get_upload_position q with
    | .raiseUploadError => .raiseUploadErrorQuery
    | .ret p => .next p false upload_url true

/-- Outcome of driving the chunk loop to completion (api.py lines 205-267).
`typeErrorNonePosition` models the Python TypeError raised by evaluating
`position < total` when position is None; `attributeErrorNoResponse` models
`response.status_code` when no chunk was ever sent (response is None). -/
inductive UploadOutcome
  | success
  | uploadErrorChunk
  | uploadErrorQuery
  | uploadErrorInitiation
  | fileNotFoundError
  | uploadErrorFinalStatus
  | typeErrorNonePosition
  | attributeErrorNoResponse
  | outOfFuel
  deriving DecidableEq

/-- Oracle giving the server's answer to the n-th chunk PUT, the n-th status
query, and the n-th session initiation of one upload call. -/
structure LoopOracle where
  resp : Nat → ChunkResponse
  qry : Nat → StatusQueryAnswer
  ini : Nat → InitiationAnswer

/-- Source: api.py lines 205-267, the chunk loop followed by the final status
check.  Arguments after the oracle: fuel, current position (None models
Python None), weird-error flag, upload URL, number of PUTs, status queries
and initiations consumed so far, status of the last chunk response (None
before the first PUT).  After the loop, the status of the response to the
final chunk must be 200 or 201, else UploadError (lines 262-267). -/
def uploadLoop (chunk_size total : Nat) (o : LoopOracle) (pop : String → String) :
    Nat → Option Nat → Bool → String → Nat → Nat → Nat → Option Nat → UploadOutcome
  | 0, _, _, _, _, _, _, _ => .outOfFuel
  | fuel + 1, posOpt, weird, url, nput, nqry, nini, last =>
    match posOpt with
    | none => .typeErrorNonePosition
    | some position =>
      if position < total then
        match chunkIteration chunk_size total position weird url
            (o.resp nput) (o.qry nqry) (o.ini nini) pop with
        | .next p w u queried =>
            uploadLoop chunk_size total o pop fuel p w u (nput + 1)
              (nqry + (if queried then 1 else 0))
              (nini + (if (o.resp nput).status = 404 then 1 else 0))
              (some (o.resp nput).status)
        | .raiseUploadErrorChunk => .uploadErrorChunk
        | .raiseUploadErrorQuery => .uploadErrorQuery
        | .raiseFileNotFound => .fileNotFoundError
        | .raiseUploadErrorInitiation => .uploadErrorInitiation
      else
        match last with
        | none => .attributeErrorNoResponse
        | some s => if s ∈ [200, 201] then .success else .uploadErrorFinalStatus

theorem uploadLoop_succ (chunk_size total : Nat) (o : LoopOracle) (pop : String → String)
    (fuel : Nat) (posOpt : Option Nat) (weird : Bool) (url : String)
    (nput nqry nini : Nat) (last : Option Nat) :
    uploadLoop chunk_size total o pop (fuel + 1) posOpt weird url nput nqry nini last
      = match posOpt with
        | none => .typeErrorNonePosition
        | some position =>
          if position < total then
            match chunkIteration chunk_size total position weird url
                (o.resp nput) (o.qry nqry) (o.ini nini) pop with
            | .next p w u queried =>
                uploadLoop chunk_size total o pop fuel p w u (nput + 1)
                  (nqry + (if queried then 1 else 0))
                  (nini + (if (o.resp nput).status = 404 then 1 else 0))
                  (some (o.resp nput).status)
            | .raiseUploadErrorChunk => .uploadErrorChunk
            | .raiseUploadErrorQuery => .uploadErrorQuery
            | .raiseFileNotFound => .fileNotFoundError
            | .raiseUploadErrorInitiation => .uploadErrorInitiation
          else
            match last with
            | none => .attributeErrorNoResponse
            | some s => if s ∈ [200, 201] then .success else .uploadErrorFinalStatus := rfl

/-- Source: api.py lines 187-192 followed by the loop: the resume path of
`upload` when a saved session was loaded.  `position` is recovered with
`_get_upload_position` (consuming status query 0) and the loop starts with a
cleared weird-error flag. -/
def uploadResume (chunk_size total : Nat) (o : LoopOracle) (pop : String → String)
    (upload_url : String) (fuel : Nat) : UploadOutcome :=
  match _get_upload_position (o.qry 0) with
  | .raiseUploadError => .uploadErrorQuery
  | .ret p => uploadLoop chunk_size total o pop fuel p false upload_url 0 1 0 none

/-- C2: evaluation of the code at the failing input.  When the status query
returns HTTP 200 with an empty expected-ranges list, `_get_upload_position`
raises UploadError if the remote path is still absent after the 30-second
wait (last conjunct), as the claim states; but when the remote path exists it
returns Python None (first conjunct), and the caller's loop condition
`position < total` then raises TypeError instead of finishing successfully,
both on the resume path (second conjunct) and on the in-loop
resynchronisation path after a transient 500 (third conjunct). -/
theorem empty_expected_ranges_code_path :
    _get_upload_position ⟨200, [], true⟩ = .ret none
    ∧ uploadResume 327680 655360
        ⟨fun _ => ⟨200, false⟩, fun _ => ⟨200, [], true⟩, fun _ => ⟨200, some ("w")⟩⟩
        id ("u") 10 = .typeErrorNonePosition
    ∧ uploadLoop 327680 655360
        ⟨fun _ => ⟨500, false⟩, fun _ => ⟨200, [], true⟩, fun _ => ⟨200, some ("w")⟩⟩
        id 10 (some 0) false ("u") 0 0 0 none = .typeErrorNonePosition
    ∧ _get_upload_position ⟨200, [], false⟩ = .raiseUploadError :=
  ⟨rfl, rfl, rfl, rfl⟩

/-- C3: in the chunk loop, an anomalous response (a 416 whose error body
indicates fragmentRowCountCheckFailed, or a 401) raises UploadError exactly
when the weird-error flag is already set: with the flag set it raises (first
conjunct); with the flag clear it merely sets the flag and resynchronises
(second conjunct); every Progress response (200/201/202) clears the flag
(third conjunct).  Concretely, two consecutive anomalous responses raise
(fourth conjunct), while anomalous/Progress/anomalous/Progress completes
without raising (fifth conjunct). -/
theorem anomalous_retry_flag_semantics
    (cs total position : Nat) (url : String) (r : ChunkResponse)
    (q : StatusQueryAnswer) (ini : InitiationAnswer) (pop : String → String)
    (hr : (r.status = 416 ∧ r.fragmentRowCountCheckFailed = true) ∨ r.status = 401) :
    chunkIteration cs total position true url r q ini pop = .raiseUploadErrorChunk
    ∧ (∀ p, _get_upload_position q = .ret p →
        chunkIteration cs total position false url r q ini pop = .next p true url true)
    ∧ (∀ (w : Bool) (r2 : ChunkResponse) (q2 : StatusQueryAnswer) (ini2 : InitiationAnswer),
        r2.status ∈ [200, 201, 202] →
        chunkIteration cs total position w url r2 q2 ini2 pop
          = .next (some (position + min cs (total - position))) false url false)
    ∧ uploadLoop 327680 655360
        ⟨fun _ => ⟨401, false⟩, fun _ => ⟨200, [0], true⟩, fun _ => ⟨200, some ("w")⟩⟩
        id 5 (some 0) false ("u") 0 0 0 none = .uploadErrorChunk
    ∧ uploadLoop 327680 655360
        ⟨fun n => if n % 2 = 0 then ⟨401, false⟩ else ⟨200, false⟩,
         fun n => ⟨200, [327680 * n], true⟩, fun _ => ⟨200, some ("w")⟩⟩
        id 6 (some 0) false ("u") 0 0 0 none = .success := by
  have hweird : _is_weird_upload_error r = true := by
    rcases hr with ⟨h416, hflag⟩ | h401
    · simp [_is_weird_upload_error, h416, hflag]
    · simp [_is_weird_upload_error, h401]
  have hnotprog : ¬ r.status ∈ [200, 201, 202] := by
    rcases hr with ⟨h416, _⟩ | h401
    · simp [h416]
    · simp [h401]
  have hnot404 : ¬ r.status = 404 := by
    rcases hr with ⟨h416, _⟩ | h401
    · simp [h416]
    · simp [h401]
  refine ⟨?_, ?_, ?_, ?_, ?_⟩
  · rw [chunkIteration, if_neg hnotprog, if_neg hnot404, if_pos hweird]
    rfl
  · intro p hp
    rw [chunkIteration, if_neg hnotprog, if_neg hnot404, if_pos hweird]
    simp [hp]
  · intro w r2 q2 ini2 h2
    rw [chunkIteration, if_pos h2]
  · rfl
  · rfl

/-- Witness for C3 at a concrete 401 response with the flag already set. -/
theorem anomalous_retry_flag_semantics_witness :
    chunkIteration 327680 655360 0 true ("u") ⟨401, false⟩ ⟨200, [0], true⟩
      ⟨200, some ("w")⟩ id = .raiseUploadErrorChunk :=
  (anomalous_retry_flag_semantics 327680 655360 0 ("u") ⟨401, false⟩ ⟨200, [0], true⟩
    ⟨200, some ("w")⟩ id (Or.inr rfl)).1

/-- C4: whenever a chunk PUT returns status 404, the iteration re-initiates
the upload session (adopting the freshly returned, token-stripped upload
URL), resets position to 0, clears the weird-error flag and continues the
loop (first conjunct) — the 404 is not treated as fatal; and restarting from
position 0 re-covers the whole file [0, total) under the happy path, so no
partial progress is carried across the restart (second conjunct). -/
theorem restart_on_404_resets
    (cs total position : Nat) (hc : 0 < cs) (w : Bool) (url u : String)
    (q : StatusQueryAnswer) (pop : String → String)
    (r : ChunkResponse) (hr : r.status = 404) :
    chunkIteration cs total position w url r q ⟨200, some u⟩ pop
      = .next (some 0) false (pop u) false
    ∧ ((uploadChunksFrom cs hc total 0).map fun x => List.range' x.1 x.2).flatten
      = List.range' 0 total := by
  constructor
  · have hnotprog : ¬ r.status ∈ [200, 201, 202] := by simp [hr]
    rw [chunkIteration, if_neg hnotprog, if_pos hr]
    rfl
  · simpa using uploadChunksFrom_join cs hc total 0

/-- Witness for C4 at a concrete 404 response. -/
theorem restart_on_404_resets_witness :
    chunkIteration 327680 655360 327680 true ("old") ⟨404, false⟩ ⟨200, [0], true⟩
      ⟨200, some ("fresh")⟩ id = .next (some 0) false ("fresh") false :=
  (restart_on_404_resets 327680 655360 327680 (by decide) true ("old") ("fresh")
    ⟨200, [0], true⟩ id ⟨404, false⟩ rfl).1

/-- C7: when the chunk loop exits with position equal to total, the upload
succeeds only if the response to the final chunk has status 200 or 201
(second conjunct, the exit step for any final status); in particular a
single-chunk upload whose chunk PUT returns any Progress status s in
{200, 201, 202} is accepted by the loop without retrying, but succeeds only
for s in {200, 201} — a final 202 raises UploadError (first conjunct). -/
theorem final_chunk_status_check
    (cs total : Nat) (h0 : 0 < total) (h1 : total ≤ cs)
    (o : LoopOracle) (pop : String → String) (url : String)
    (s : Nat) (hs : s ∈ [200, 201, 202]) (hresp : o.resp 0 = ⟨s, false⟩) :
    uploadLoop cs total o pop 2 (some 0) false url 0 0 0 none
      = (if s = 200 ∨ s = 201 then .success else .uploadErrorFinalStatus)
    ∧ (∀ (w : Bool) (a b c : Nat) (s2 : Nat) (fuel : Nat),
        uploadLoop cs total o pop (fuel + 1) (some total) w url a b c (some s2)
          = if s2 = 200 ∨ s2 = 201 then .success else .uploadErrorFinalStatus) := by
  have hmin : (0 : Nat) + min cs (total - 0) = total := by
    simp [Nat.min_eq_right h1]
  constructor
  · have hs' : s = 200 ∨ s = 201 ∨ s = 202 := by simpa using hs
    have hstep : chunkIteration cs total 0 false url ⟨s, false⟩ (o.qry 0) (o.ini 0) pop
        = .next (some total) false url false := by
      rw [chunkIteration, if_pos (by simpa using hs')]
      rw [hmin]
    rw [show (2 : Nat) = 1 + 1 from rfl]
    simp only [uploadLoop_succ, if_pos h0, hresp, hstep,
      if_neg (Nat.lt_irrefl total)]
    rcases hs' with rfl | rfl | rfl <;> simp
  · intro w a b c s2 fuel
    simp only [uploadLoop_succ, if_neg (Nat.lt_irrefl total)]
    by_cases h2 : s2 = 200 ∨ s2 = 201
    · rw [if_pos (by simpa using h2), if_pos h2]
    · rw [if_neg (by simpa using h2), if_neg h2]

/-- Witness for C7: a single-chunk upload whose only chunk response is 202 is
accepted by the loop but ends in UploadError. -/
theorem final_chunk_status_check_witness :
    uploadLoop 327680 327680
      ⟨fun _ => ⟨202, false⟩, fun _ => ⟨200, [0], true⟩, fun _ => ⟨200, some ("w")⟩⟩
      id 2 (some 0) false ("u") 0 0 0 none = .uploadErrorFinalStatus := by
  have h := (final_chunk_status_check 327680 327680 (by decide) (by decide)
    ⟨fun _ => ⟨202, false⟩, fun _ => ⟨200, [0], true⟩, fun _ => ⟨200, some ("w")⟩⟩
    id ("u") 202 (by decide) rfl).1
  simpa using h

/-! ### ChunkTransport retry loops (upload_helper.py lines 31-60)

One attempt of a chunk PUT either raises a network-level
`requests.exceptions.RequestException` (modelled by `exn e`, where `e`
identifies the exception object) or produces an HTTP response, whatever its
status code (modelled by `resp status`).  The oracle `attempts` gives the
outcome of the attempt with index `retry`. -/

inductive AttemptOutcome
  | exn (e : Nat)
  | resp (status : Nat)
  deriving DecidableEq

/-- Source: upload_helper.py lines 51-60, the body of `put_file_segment`:
`for retry in range(retries + 1)`, returning the response of the first
attempt that does not raise, re-raising on the last attempt.  `remaining`
counts the loop iterations still to come after the current one, so
`remaining = 0` exactly when `retry == retries`. -/
def putFileSegmentLoop (attempts : Nat → AttemptOutcome) : Nat → Nat → Except Nat (Nat × Nat)
  | retry, 0 =>
    (match attempts retry with
     | .resp s => .ok (s, retry)
     | .exn e => .error e)
  | retry, remaining + 1 =>
    (match attempts retry with
     | .resp s => .ok (s, retry)
     | .exn e => putFileSegmentLoop attempts (retry + 1) remaining)

/-- Source: upload_helper.py lines 47-60, `put_file_segment` (buffered mode):
the retry loop started at retry = 0.  On success the result carries the
response's status and the index of the attempt that produced it; on failure
it carries the re-raised exception. -/
def put_file_segment (attempts : Nat → AttemptOutcome) (retries : Nat) :
    Except Nat (Nat × Nat) :=
  putFileSegmentLoop attempts 0 retries

/-- Source: upload_helper.py lines 34-45, the body of `stream_put_file_segment`:
identical retry loop to `putFileSegmentLoop` (the per-attempt construction of
a fresh FileSegment is part of the attempt the oracle reports on). -/
def streamPutFileSegmentLoop (attempts : Nat → AttemptOutcome) :
    Nat → Nat → Except Nat (Nat × Nat)
  | retry, 0 =>
    (match attempts retry with
     | .resp s => .ok (s, retry)
     | .exn e => .error e)
  | retry, remaining + 1 =>
    (match attempts retry with
     | .resp s => .ok (s, retry)
     | .exn e => streamPutFileSegmentLoop attempts (retry + 1) remaining)

/-- Source: upload_helper.py lines 31-45, `stream_put_file_segment`
(streaming mode). -/
def stream_put_file_segment (attempts : Nat → AttemptOutcome) (retries : Nat) :
    Except Nat (Nat × Nat) :=
  streamPutFileSegmentLoop attempts 0 retries

theorem putFileSegmentLoop_ok (attempts : Nat → AttemptOutcome) :
    ∀ remaining retry s i, putFileSegmentLoop attempts retry remaining = .ok (s, i) →
      retry ≤ i ∧ i ≤ retry + remaining ∧ attempts i = .resp s
        ∧ ∀ j, retry ≤ j → j < i → ∃ e, attempts j = .exn e := by
  intro remaining
  induction remaining with
  | zero =>
    intro retry s i h
    cases ha : attempts retry with
    | resp s0 =>
      rw [putFileSegmentLoop, ha] at h
      simp at h
      obtain ⟨rfl, rfl⟩ := h
      exact ⟨le_rfl, le_rfl, ha, fun j hj1 hj2 => absurd hj2 (by omega)⟩
    | exn e =>
      rw [putFileSegmentLoop, ha] at h
      simp at h
  | succ remaining ih =>
    intro retry s i h
    cases ha : attempts retry with
    | resp s0 =>
      rw [putFileSegmentLoop, ha] at h
      simp at h
      obtain ⟨rfl, rfl⟩ := h
      exact ⟨le_rfl, by omega, ha, fun j hj1 hj2 => absurd hj2 (by omega)⟩
    | exn e =>
      rw [putFileSegmentLoop, ha] at h
      obtain ⟨h1, h2, h3, h4⟩ := ih (retry + 1) s i h
      refine ⟨by omega, by omega, h3, ?_⟩
      intro j hj1 hj2
      rcases Nat.eq_or_lt_of_le hj1 with rfl | hlt
      · exact ⟨e, ha⟩
      · exact h4 j (by omega) hj2

theorem putFileSegmentLoop_error (attempts : Nat → AttemptOutcome) :
    ∀ remaining retry,
      (∀ j, retry ≤ j → j ≤ retry + remaining → ∃ e, attempts j = .exn e) →
      ∃ e, attempts (retry + remaining) = .exn e
        ∧ putFileSegmentLoop attempts retry remaining = .error e := by
  intro remaining
  induction remaining with
  | zero =>
    intro retry hall
    obtain ⟨e, he⟩ := hall retry le_rfl (by omega)
    refine ⟨e, by simpa using he, ?_⟩
    rw [putFileSegmentLoop, he]
  | succ remaining ih =>
    intro retry hall
    obtain ⟨e0, he0⟩ := hall retry le_rfl (by omega)
    obtain ⟨e, he, hres⟩ := ih (retry + 1) (fun j h1 h2 => hall j (by omega) (by omega))
    refine ⟨e, ?_, ?_⟩
    · rw [show retry + (remaining + 1) = retry + 1 + remaining by omega]
      exact he
    · rw [putFileSegmentLoop, he0]
      exact hres

theorem streamPutFileSegmentLoop_eq (attempts : Nat → AttemptOutcome) :
    ∀ remaining retry, streamPutFileSegmentLoop attempts retry remaining
      = putFileSegmentLoop attempts retry remaining := by
  intro remaining
  induction remaining with
  | zero =>
    intro retry
    rw [streamPutFileSegmentLoop, putFileSegmentLoop]
  | succ remaining ih =>
    intro retry
    rw [streamPutFileSegmentLoop, putFileSegmentLoop]
    cases attempts retry with
    | resp s => rfl
    | exn e => exact ih (retry + 1)

/-- C9: for every chunk PUT in buffered or streaming mode with retry budget
`retries`, the request is attempted at most `retries + 1` times: a successful
result comes from attempt `i ≤ retries`, is exactly the first attempt that
produced an HTTP response (every earlier attempt raised a network exception;
no HTTP status causes a repeat), and if all `retries + 1` attempts raise, the
exception of the final attempt propagates.  The streaming-mode loop behaves
identically to the buffered-mode loop. -/
theorem put_segment_retry_policy (attempts : Nat → AttemptOutcome) (retries : Nat) :
    (∀ s i, put_file_segment attempts retries = .ok (s, i) →
        i ≤ retries ∧ attempts i = .resp s ∧ ∀ j, j < i → ∃ e, attempts j = .exn e)
    ∧ ((∀ j, j ≤ retries → ∃ e, attempts j = .exn e) →
        ∃ e, attempts retries = .exn e ∧ put_file_segment attempts retries = .error e)
    ∧ stream_put_file_segment attempts retries = put_file_segment attempts retries := by
  refine ⟨?_, ?_, ?_⟩
  · intro s i h
    obtain ⟨h1, h2, h3, h4⟩ := putFileSegmentLoop_ok attempts retries 0 s i h
    exact ⟨by omega, h3, fun j hj => h4 j (by omega) hj⟩
  · intro hall
    obtain ⟨e, he, hres⟩ :=
      putFileSegmentLoop_error attempts retries 0 (fun j h1 h2 => hall j (by omega))
    exact ⟨e, by simpa using he, hres⟩
  · exact streamPutFileSegmentLoop_eq attempts retries 0

/-- Witness for C9: with attempt 0 raising and attempt 1 answering 503, the
result is the 503 response from attempt 1 (an HTTP error status is returned,
not retried). -/
theorem put_segment_retry_policy_witness :
    (1 : Nat) ≤ 5
    ∧ (fun j => if j = 0 then AttemptOutcome.exn 7 else AttemptOutcome.resp 503) 1
        = AttemptOutcome.resp 503 := by
  have h := (put_segment_retry_policy
    (fun j => if j = 0 then AttemptOutcome.exn 7 else AttemptOutcome.resp 503) 5).1
    503 1 (by rfl)
  exact ⟨h.1, h.2.1⟩

/-! ### FileSegment (upload_helper.py lines 9-29) -/

/-- The underlying binary file object opened by `upload`: its byte content
and current seek position.  `read` follows Python binary-file semantics: a
negative requested size reads to EOF, otherwise up to `size` bytes are
returned, and the position advances by the number of bytes returned. -/
structure FileObj where
  data : List Nat
  tell : Nat
  deriving DecidableEq

def FileObj.seek (fileobj : FileObj) (position : Nat) : FileObj :=
  { fileobj with tell := position }

def FileObj.read (fileobj : FileObj) (size : Int) : List Nat × FileObj :=
  let k := if size < 0 then fileobj.data.length - fileobj.tell
           else min size.toNat (fileobj.data.length - fileobj.tell)
  ((fileobj.data.drop fileobj.tell).take k, { fileobj with tell := fileobj.tell + k })

/-- The FileSegment attributes set by `__init__` (upload_helper.py lines
12-21): `_end` is `min(start + length, total)`, the position one past the
last readable byte of the segment. -/
structure FileSegment where
  _start : Nat
  _end : Nat
  _length : Nat
  len : Nat
  deriving DecidableEq

/-- Source: upload_helper.py lines 12-21, `FileSegment.__init__`: record the
window, `assert self._start < self._end` (None models the AssertionError),
and seek the underlying file object to `start`. -/
def FileSegment.init (fileobj : FileObj) (start length total : Nat) :
    Option (FileSegment × FileObj) :=
  if start < min (start + length) total then
    some ({ _start := start, _end := min (start + length) total,
            _length := length, len := length }, fileobj.seek start)
  else
    none

/-- Source: upload_helper.py lines 23-29, `FileSegment.read`: a None size
becomes -1; `maxsize` is the distance from the current file position to the
segment end; a negative or oversized request is clamped to `maxsize`; the
clamped request is passed on to the underlying file object's read. -/
def FileSegment.read (seg : FileSegment) (fileobj : FileObj) (size : Option Int) :
    List Nat × FileObj :=
  let size0 := size.getD (-1)
  let maxsize : Int := (seg._end : Int) - (fileobj.tell : Int)
  let size1 := if size0 < 0 ∨ size0 > maxsize then maxsize else size0
  fileobj.read size1

theorem FileSegment.read_spec (seg : FileSegment) (fileobj : FileObj) (size : Option Int)
    (h2 : fileobj.tell ≤ seg._end) :
    ∃ k, fileobj.tell + k ≤ seg._end
      ∧ seg.read fileobj size
          = ((fileobj.data.drop fileobj.tell).take k,
             { fileobj with tell := fileobj.tell + k }) := by
  simp only [FileSegment.read, FileObj.read]
  split_ifs with hcl hneg hneg2
  · exfalso
    omega
  · exact ⟨_, by omega, rfl⟩
  · exfalso
    rw [not_or] at hcl
    omega
  · rw [not_or] at hcl
    refine ⟨_, ?_, rfl⟩
    have ht : (Option.getD size (-1)).toNat ≤ ((seg._end : Int) - (fileobj.tell : Int)).toNat := by
      omega
    omega

/-- C10: for every FileSegment constructed with start < min(start + length,
total) the constructor's assertion succeeds, the underlying file object is
sought to start, and the recorded window is [start, min(start + length,
total)) (first conjunct); every read call, for any size (negative, None or
oversized included), returns bytes drawn only from positions [tell, tell')
with start ≤ tell and tell' ≤ _end — never at or past the segment end — and
leaves the data unchanged (second conjunct); and every chunk sent by the
upload loop satisfies the constructor's precondition (third conjunct). -/
theorem file_segment_window_safety
    (fileobj : FileObj) (start length total : Nat)
    (h : start < min (start + length) total) :
    FileSegment.init fileobj start length total
      = some ({ _start := start, _end := min (start + length) total,
                _length := length, len := length }, fileobj.seek start)
    ∧ (∀ (seg : FileSegment) (fo : FileObj) (size : Option Int),
        seg._start ≤ fo.tell → fo.tell ≤ seg._end →
        fo.tell ≤ (seg.read fo size).2.tell
        ∧ (seg.read fo size).2.tell ≤ seg._end
        ∧ (seg.read fo size).1
            = (fo.data.drop fo.tell).take ((seg.read fo size).2.tell - fo.tell)
        ∧ (seg.read fo size).2.data = fo.data)
    ∧ (∀ (c n : Nat) (hc : 0 < c), ∀ x ∈ uploadChunks c hc n,
        x.1 < min (x.1 + x.2) n) := by
  refine ⟨?_, ?_, ?_⟩
  · rw [FileSegment.init, if_pos h]
  · intro seg fo size h1 h2
    obtain ⟨k, hk, heq⟩ := FileSegment.read_spec seg fo size h2
    refine ⟨?_, ?_, ?_, ?_⟩
    · rw [heq]
      simp
    · rw [heq]
      simpa using hk
    · rw [heq]
      simp
    · rw [heq]
  · intro c n hc x hx
    obtain ⟨hsz, hpos, hle, -⟩ := uploadChunksFrom_mem c hc n 0 x hx
    rw [Nat.min_eq_left hle]
    omega

/-- Witness for C10: a segment of length 2 at offset 1 in a 5-byte file. -/
theorem file_segment_window_safety_witness :
    FileSegment.init ⟨[10, 11, 12, 13, 14], 0⟩ 1 2 5
      = some (⟨1, 3, 2, 2⟩, ⟨[10, 11, 12, 13, 14], 1⟩) := by
  have h := (file_segment_window_safety ⟨[10, 11, 12, 13, 14], 0⟩ 1 2 5 (by decide)).1
  simpa [FileObj.seek] using h

/-! ### Saved upload sessions (save.py) -/

/-- Parsed content of a session file on disk: the JSON object
`{"upload_url": ..., "expires": ...}` with `expires` a POSIX timestamp
(save.py lines 5-14). -/
structure SessionFileContent where
  upload_url : String
  expires : Int
  deriving DecidableEq

/-- In-memory attributes of a SavedUploadSession after `load`: `upload_url`
and `expires`, both None when no valid session was loaded (save.py lines
33-42, 84-85). -/
structure SavedUploadSession where
  upload_url : Option String
  expires : Option Int
  deriving DecidableEq

namespace SavedUploadSession

/-- Source: save.py lines 51-53, `__bool__`: `self.upload_url is not None`. -/
def toBool (self : SavedUploadSession) : Bool :=
  self.upload_url.isSome

/-- Source: save.py lines 68-85, `load`.  The disk state is `some content`
when the session file exists and parses, `none` otherwise; `now` is
`time.time()` (a float in Python; the claim concerns instants strictly after
the integer `expires`, for which the comparison agrees with the Int model).
If the file exists and `expires > now`, the attributes are loaded and the
file is kept; otherwise the expired file is removed (`os.remove`) and both
attributes are set to None.  Returns the session object's new attributes and
the disk state after the call. -/
def load (onDisk : Option SessionFileContent) (now : Int) :
    SavedUploadSession × Option SessionFileContent :=
  match onDisk with
  | some session =>
    if session.expires > now then
      ({ upload_url := some session.upload_url, expires := some session.expires },
       some session)
    else
      ({ upload_url := none, expires := none }, none)
  | none => ({ upload_url := none, expires := none }, none)

end SavedUploadSession

/-- C5: a session file whose expires timestamp is in the past at load time is
never yielded by `load`: the loaded object has `upload_url = None` and
`expires = None`, hence tests false under `__bool__`, and the expired file is
removed from disk as a side effect of the failed load — an expired session is
never reused. -/
theorem expired_session_not_loaded (content : SessionFileContent) (now : Int)
    (h : content.expires < now) :
    (SavedUploadSession.load (some content) now).1.upload_url = none
    ∧ (SavedUploadSession.load (some content) now).1.expires = none
    ∧ (SavedUploadSession.load (some content) now).1.toBool = false
    ∧ (SavedUploadSession.load (some content) now).2 = none := by
  have hn : ¬ content.expires > now := by omega
  simp [SavedUploadSession.load, SavedUploadSession.toBool, hn]

/-- Witness for C5: a file that expired at time 0, loaded at time 1. -/
theorem expired_session_not_loaded_witness :
    (SavedUploadSession.load (some ⟨"u", 0⟩) 1).2 = none :=
  (expired_session_not_loaded ⟨"u", 0⟩ 1 (by decide)).2.2.2

/-- Source: save.py lines 55-66, `_locate_saved_session`.  The SHA-1
hexdigest (hashlib.sha1(...).hexdigest()) is abstracted as the injected
`sha1hex` function; os.path.join is concatenation with "/".  When
XDG_DATA_HOME is set, the session file is
XDG_DATA_HOME/onedrive/saved_sessions/ID.json where ID is the hexdigest of
remote_path, a newline, and sha1sum.  When XDG_DATA_HOME is unset, the
source evaluates `os.path.expanduser("~/.local/share", "onedrive")`, passing
two positional arguments to the one-parameter os.path.expanduser: this
raises TypeError before any path is produced. -/
def _locate_saved_session (sha1hex : String → String)
    (xdg_data_home : Option String) (remote_path sha1sum : String) :
    Except String String :=
  match xdg_data_home with
  | some dataHome =>
    .ok (dataHome ++ "/onedrive" ++ "/saved_sessions/"
      ++ sha1hex (remote_path ++ "\n" ++ sha1sum) ++ ".json")
  | none => .error ("TypeError")

/-- C8: with XDG_DATA_HOME set, the session file path is computed
deterministically from the SHA-1 hexdigest of remote_path, a newline, and
the content hash — the first conjunct gives the explicit formula, so two
invocations with the same (remote_path, hash) pair return the same path; but
with XDG_DATA_HOME unset the call raises TypeError instead of returning a
path (second conjunct), contradicting the claim and save.py's own module
docstring, which promises `~/.local/share/onedrive/saved_sessions/ID.json`. -/
theorem locate_saved_session_behavior (sha1hex : String → String)
    (dataHome remote_path sha1sum : String) :
    _locate_saved_session sha1hex (some dataHome) remote_path sha1sum
      = .ok (dataHome ++ "/onedrive" ++ "/saved_sessions/"
          ++ sha1hex (remote_path ++ "\n" ++ sha1sum) ++ ".json")
    ∧ _locate_saved_session sha1hex none remote_path sha1sum = .error ("TypeError") :=
  ⟨rfl, rfl⟩

end Onedrive
